import Mathlib

/-!
Shallow embedding of the agentlify-js client library.

The embedding covers:
* `Agentlify.request` (src/index.js): the transport retry wrapper;
* `Agents.run`, `Agents.execute`, `Agents._extractToolCallbacks`,
  `Agents._executeToolCallbacks` (src/agents.js): the agent tool-execution
  loop, callback registry and tool resolver.

JavaScript values are embedded as follows: JSON-serializable values become
the inductive `Json`; possibly-absent fields become `Option`; JS truthiness
tests become explicit `Bool` functions; `async` functions that may throw
become `Except String`-valued functions carrying the error message; the
runtime's `JSON.parse` is a parameter `parse` of the resolver; the HTTP
layer is a parameter (`transport` for the agent loop, `outcomes` for the
retry wrapper).  Ghost observations (the number of transport calls made,
the backoff delays slept) are threaded through the definitions so that the
specification's statements about them can be expressed.
-/

/-- JSON-serializable values (the values that flow through tool callbacks,
tool results and message contents). -/
inductive Json where
  | null
  | bool (b : Bool)
  | num (n : Int)
  | str (s : String)
  | arr (xs : List Json)
  | obj (kvs : List (String × Json))
deriving Repr

/-- Escape one character the way `JSON.stringify` escapes characters inside
a string literal. -/
def escapeChar (c : Char) : String :=
  if c = '"' then "\\\""
  else if c = '\\' then "\\\\"
  else if c = '\n' then "\\n"
  else if c = '\t' then "\\t"
  else if c = '\r' then "\\r"
  else String.singleton c

/-- Escape a string the way `JSON.stringify` renders string contents. -/
def escapeString (s : String) : String :=
  String.join (s.toList.map escapeChar)

mutual
/-- Model of `JSON.stringify` on the `Json` embedding. -/
def stringify : Json → String
  | .null => "null"
  | .bool true => "true"
  | .bool false => "false"
  | .num n => toString n
  | .str s => "\"" ++ escapeString s ++ "\""
  | .arr xs => "[" ++ stringifyArr xs ++ "]"
  | .obj kvs => "\x7b" ++ stringifyObj kvs ++ "\x7d"

/-- Comma-separated rendering of a JSON array's elements. -/
def stringifyArr : List Json → String
  | [] => ""
  | [x] => stringify x
  | x :: xs => stringify x ++ "," ++ stringifyArr xs

/-- Comma-separated rendering of a JSON object's key/value pairs. -/
def stringifyObj : List (String × Json) → String
  | [] => ""
  | [(k, v)] => "\"" ++ escapeString k ++ "\":" ++ stringify v
  | (k, v) :: kvs =>
      "\"" ++ escapeString k ++ "\":" ++ stringify v ++ "," ++ stringifyObj kvs
end

/-- JS truthiness of a `Json` value (used for `if(toolCall.function?.arguments)`
when the arguments field already holds a structured value). -/
def Json.truthy : Json → Bool
  | .null => false
  | .bool b => b
  | .num n => n != 0
  | .str s => !s.isEmpty
  | .arr _ => true
  | .obj _ => true

/-- The `arguments` field of a tool call: either raw JSON text (the declared
shape) or an already-structured value (handled defensively by the code's
`typeof === 'string'` check). -/
inductive ArgsVal where
  | str (s : String)
  | json (j : Json)
deriving Repr

/-- JS truthiness of the `arguments` value. -/
def ArgsVal.truthy : ArgsVal → Bool
  | .str s => !s.isEmpty
  | .json j => j.truthy

/-- The `function` part of a tool call: `{name, arguments}`.  `arguments` is
optional because the code guards on `toolCall.function?.arguments`. -/
structure ToolCallFunction where
  name : String
  arguments : Option ArgsVal := none

/-- A tool-call request produced by the server: `{id, function}`.  The code
accesses `toolCall.function?.name`, so `function` is optional. -/
structure ToolCall where
  id : String
  function : Option ToolCallFunction := none

/-- A locally produced tool result: `{tool_call_id, content}`. -/
structure ToolResult where
  tool_call_id : String
  content : Json

/-- A tool callback: receives the parsed arguments and either returns a
JSON-serializable value or throws with an error message. -/
def Callback : Type := Json → Except String Json

/-- The callback registry: a JS `Map` from tool name to callback, embedded
as an association list where `mapSet` overwrites in place and `mapGet`
returns the first (hence current) binding. -/
def Registry : Type := List (String × Callback)

/-- `Map.prototype.set`: overwrite the existing binding for the key, else
append a fresh one. -/
def mapSet (m : Registry) (k : String) (v : Callback) : Registry :=
  match m with
  | [] => [(k, v)]
  | (k', v') :: rest =>
      if k' = k then (k, v) :: rest else (k', v') :: mapSet rest k v

/-- `Map.prototype.get`. -/
def mapGet (m : Registry) (k : String) : Option Callback :=
  match m with
  | [] => none
  | (k', v) :: rest => if k' = k then some v else mapGet rest k

/-- The `function` part of a tool definition; only `name` is consulted by
the registry (`tool.function?.name`). -/
structure ToolFunctionDef where
  name : String
deriving Repr, DecidableEq

/-- The callback-free part of a tool definition (everything the spread
`const {callback,...toolDef}=tool` keeps): the `function` field plus the
remaining fields (description, parameters, webhook settings), kept opaque. -/
structure ToolSpec where
  function : Option ToolFunctionDef := none
  rest : Json := Json.null

/-- A caller-supplied tool definition: the transmissible part plus the
optional local `callback`. -/
structure AgentTool where
  spec : ToolSpec
  callback : Option Callback := none

/-- Register one tool's callback, mirroring
`if(callback&&typeof callback==='function'){ const toolName=tool.function?.name;
if(toolName){ toolCallbacks.set(toolName,callback); } }`.
Note `if(toolName)` is a JS truthiness test, so an empty-string name is not
registered. -/
def registerTool (reg : Registry) (tool : AgentTool) : Registry :=
  match tool.callback with
  | some cb =>
      match tool.spec.function with
      | some f => if !f.name.isEmpty then mapSet reg f.name cb else reg
      | none => reg
  | none => reg

/-- The accumulator loop of `_extractToolCallbacks`: walk the tool list,
pushing the callback-free part onto `cleanTools` and registering callbacks. -/
def extractAux : List AgentTool → List ToolSpec → Registry →
    List ToolSpec × Registry
  | [], clean, reg => (clean, reg)
  | t :: ts, clean, reg => extractAux ts (clean ++ [t.spec]) (registerTool reg t)

/-- `Agents._extractToolCallbacks(tools)`: returns the clean tool list and
the callback registry. -/
def _extractToolCallbacks (tools : List AgentTool) : List ToolSpec × Registry :=
  extractAux tools [] []

/-- Interpolation of `toolCall.function?.name` into a JS template literal:
an absent name renders as the string `undefined`. -/
def interpName : Option String → String
  | some s => s
  | none => "undefined"

/-- Argument parsing inside the resolver's `try` block:
`let args={}; if(toolCall.function?.arguments){ args = typeof a==='string' ?
JSON.parse(a) : a; }`.  `parse` stands for the runtime's `JSON.parse`,
failing with the exception's message. -/
def computeArgs (parse : String → Except String Json) (tc : ToolCall) :
    Except String Json :=
  match tc.function with
  | none => .ok (Json.obj [])
  | some f =>
      match f.arguments with
      | none => .ok (Json.obj [])
      | some a =>
          if a.truthy then
            match a with
            | .str s => parse s
            | .json j => .ok j
          else .ok (Json.obj [])

/-- The `{error: <message>}` content produced when a callback (or the
argument parse) throws, and when no callback is registered. -/
def errContent (m : String) : Json :=
  Json.obj [("error", Json.str m)]

/-- The resolver's `try { ...parse args...; result=await callback(args); }
catch(error) { result={error: error.message}; }` block: any failure of the
argument parse or of the callback is converted to `{error: <message>}`. -/
def invokeCallback (parse : String → Except String Json) (tc : ToolCall)
    (cb : Callback) : Json :=
  match computeArgs parse tc with
  | .error m => errContent m
  | .ok args =>
      match cb args with
      | .error m => errContent m
      | .ok v => v

/-- One iteration of `_executeToolCallbacks`'s loop: resolve a single tool
call against the registry. -/
def resolveOne (parse : String → Except String Json) (reg : Registry)
    (tc : ToolCall) : ToolResult :=
  let toolName := tc.function.map ToolCallFunction.name
  match toolName.bind (mapGet reg) with
  | some cb => { tool_call_id := tc.id, content := invokeCallback parse tc cb }
  | none =>
      { tool_call_id := tc.id
        content := errContent ("No callback registered for tool: " ++
          interpName toolName) }

/-- `Agents._executeToolCallbacks(toolCalls,toolCallbacks)`: one result per
call, produced in order. -/
def _executeToolCallbacks (parse : String → Except String Json)
    (toolCalls : List ToolCall) (reg : Registry) : List ToolResult :=
  toolCalls.map (resolveOne parse reg)

/-- A conversation message.  Caller-supplied messages are arbitrary; the
loop appends assistant messages (with `tool_calls`) and `tool` messages
(with `tool_call_id` and serialized string content). -/
structure Message where
  role : String
  content : Option String := none
  tool_calls : Option (List ToolCall) := none
  tool_call_id : Option String := none

/-- The message inside a response choice: `{content, tool_calls}`. -/
structure RespMessage where
  content : Option String := none
  tool_calls : Option (List ToolCall) := none

/-- A response choice: `{message, finish_reason}`. -/
structure Choice where
  message : RespMessage
  finish_reason : Option String := none

/-- The `agent_metadata` object; only `requires_tool_execution` is
consulted by the loop. -/
structure AgentMetadata where
  requires_tool_execution : Option Bool := none

/-- An agent response: `{id, choices, agent_metadata}`; other response
fields play no role in the loop and the response value is returned whole. -/
structure AgentResponse where
  id : String := ""
  choices : List Choice := []
  agent_metadata : Option AgentMetadata := none

/-- `response.choices?.[0]?.finish_reason`. -/
def finishReasonOf (r : AgentResponse) : Option String :=
  r.choices.head?.bind Choice.finish_reason

/-- Truthiness of `response.agent_metadata?.requires_tool_execution`. -/
def requiresToolExecFlag (r : AgentResponse) : Bool :=
  match r.agent_metadata with
  | some m => m.requires_tool_execution.getD false
  | none => false

/-- `const needsToolExecution=response.choices?.[0]?.finish_reason==='tool_calls'||
response.agent_metadata?.requires_tool_execution;`. -/
def needsToolExecution (r : AgentResponse) : Bool :=
  (match finishReasonOf r with
   | some s => s = "tool_calls"
   | none => false) || requiresToolExecFlag r

/-- `response.choices?.[0]?.message?.tool_calls`. -/
def toolCallsOf (r : AgentResponse) : Option (List ToolCall) :=
  r.choices.head?.bind (fun c => c.message.tool_calls)

/-- The guard `if(!toolCalls||toolCalls.length===0)`: `none` when the
response carries no usable tool-call list. -/
def pendingToolCalls (r : AgentResponse) : Option (List ToolCall) :=
  match toolCallsOf r with
  | none => none
  | some [] => none
  | some tcs => some tcs

/-- `response.choices[0].message.content||null`: an empty string is falsy
and becomes null. -/
def contentOrNull (r : AgentResponse) : Option String :=
  match r.choices.head?.bind (fun c => c.message.content) with
  | some s => if s.isEmpty then none else some s
  | none => none

/-- The assistant message the loop pushes:
`{role:'assistant', content: response.choices[0].message.content||null,
tool_calls: toolCalls}`. -/
def assistantMessage (r : AgentResponse) (tcs : List ToolCall) : Message :=
  { role := "assistant", content := contentOrNull r, tool_calls := some tcs }

/-- `typeof result.content==='string'? result.content : JSON.stringify(result.content)`. -/
def serializeContent : Json → String
  | .str s => s
  | c => stringify c

/-- The `tool` message the loop pushes for one result:
`{role:'tool', tool_call_id: result.tool_call_id, content: <serialized>}`. -/
def toolMessage (res : ToolResult) : Message :=
  { role := "tool", tool_call_id := some res.tool_call_id
    content := some (serializeContent res.content) }

/-- Errors `run`/`execute` throw: `InvalidRequestError(message, param)` from
validation, and the `Agent tool execution exceeded maximum iterations (max)`
error when the budget is exhausted. -/
inductive RunError where
  | invalidRequest (message param : String)
  | iterationExceeded (maxIterations : Nat)
deriving Repr, DecidableEq

/-- The observable outcome of one `run`/`execute` invocation: the returned
response or thrown error, together with ghost observations — how many
transport requests were issued, the final `currentMessages` working array,
and the caller's `params.messages` array as it stands after the call. -/
structure RunResult where
  result : Except RunError AgentResponse
  transportCalls : Nat
  sentMessages : List Message
  callerMessages : List Message

/-- The body of `run`'s `while(iteration<maxIterations)` loop.  `fuel` is
the number of remaining iterations (initially `maxIterations`), `caller` is
`params.messages` (only ever read: the loop pushes onto its own copy
`current`), and `calls` counts transport requests made so far.  When the
fuel runs out the loop exits and `run` throws the iteration-budget error. -/
def runLoop (parse : String → Except String Json)
    (transport : List Message → AgentResponse) (reg : Registry)
    (maxIterations : Nat) :
    List Message → List Message → Nat → Nat → RunResult
  | caller, current, calls, 0 =>
      { result := .error (.iterationExceeded maxIterations)
        transportCalls := calls, sentMessages := current
        callerMessages := caller }
  | caller, current, calls, fuel + 1 =>
      let response := transport current
      if needsToolExecution response then
        match pendingToolCalls response with
        | none =>
            { result := .ok response, transportCalls := calls + 1
              sentMessages := current, callerMessages := caller }
        | some tcs =>
            let results := _executeToolCallbacks parse tcs reg
            let current' :=
              current ++ assistantMessage response tcs :: results.map toolMessage
            runLoop parse transport reg maxIterations caller current' (calls + 1) fuel
      else
        { result := .ok response, transportCalls := calls + 1
          sentMessages := current, callerMessages := caller }

/-- Parameters of `run`/`execute`.  `agentId` is `none` when absent
(`!params.agentId` is also true for the empty string); `messages` is `none`
when absent or not an array; `tools` is `none` when absent
(`params.tools||[]`). -/
structure RunParams where
  agentId : Option String := none
  messages : Option (List Message) := none
  tools : Option (List AgentTool) := none
  maxToolIterations : Option Nat := none

/-- JS truthiness test `!params.agentId`. -/
def falsyId : Option String → Bool
  | none => true
  | some s => s.isEmpty

/-- `const maxIterations=params.maxToolIterations||10;`: zero (and absence)
fall back to the default of 10. -/
def effectiveMaxIterations : Option Nat → Nat
  | none => 10
  | some n => if n = 0 then 10 else n

/-- `Agents.run(params)`: validate, extract callbacks, then iterate the
tool-execution loop.  `parse` stands for `JSON.parse`, `transport` for
`this._executeAgent` keyed by the messages it is sent (the agent id, clean
tools and options of the payload are fixed for the whole invocation). -/
def run (parse : String → Except String Json)
    (transport : List Message → AgentResponse) (params : RunParams) :
    RunResult :=
  if falsyId params.agentId then
    { result := .error (.invalidRequest "agentId is required" "agentId")
      transportCalls := 0, sentMessages := []
      callerMessages := params.messages.getD [] }
  else
    match params.messages with
    | none =>
        { result := .error (.invalidRequest "messages array is required" "messages")
          transportCalls := 0, sentMessages := [], callerMessages := [] }
    | some msgs =>
        let reg := (_extractToolCallbacks (params.tools.getD [])).2
        let maxIterations := effectiveMaxIterations params.maxToolIterations
        runLoop parse transport reg maxIterations msgs msgs 0 maxIterations

/-- `Agents.execute(params)`: same validation, strips callbacks from the
tools, then a single transport request whose result is returned as-is. -/
def execute (transport : List Message → AgentResponse) (params : RunParams) :
    RunResult :=
  if falsyId params.agentId then
    { result := .error (.invalidRequest "agentId is required" "agentId")
      transportCalls := 0, sentMessages := []
      callerMessages := params.messages.getD [] }
  else
    match params.messages with
    | none =>
        { result := .error (.invalidRequest "messages array is required" "messages")
          transportCalls := 0, sentMessages := [], callerMessages := [] }
    | some msgs =>
        { result := .ok (transport msgs), transportCalls := 1
          sentMessages := msgs, callerMessages := msgs }

/-- The errors `_handleError` produces (per the class hierarchy of the type
declarations: `AuthenticationError` and `RateLimitError` extend `APIError`,
which extends `AgentlifyError`).  `_handleError` constructs
`AuthenticationError` (401) and `RateLimitError` (429) from the message
alone, so their `status` field is undefined; `APIError` (400, 422 and the
default case) always carries the HTTP status; `AgentlifyError` covers the
network/request failures with no response. -/
inductive ReqError where
  | agentlify (msg : String)
  | api (msg : String) (status : Nat)
  | auth (msg : String)
  | rateLimit (msg : String)
deriving Repr, DecidableEq

/-- `error instanceof AuthenticationError`. -/
def ReqError.isAuth : ReqError → Bool
  | .auth _ => true
  | _ => false

/-- `error instanceof APIError`: true for `APIError` and its subclasses
`AuthenticationError` and `RateLimitError`. -/
def ReqError.isAPIError : ReqError → Bool
  | .api _ _ => true
  | .auth _ => true
  | .rateLimit _ => true
  | .agentlify _ => false

/-- `error.status<500`: for `AuthenticationError` and `RateLimitError` the
status is undefined and `undefined<500` is false in JS. -/
def ReqError.statusLt500 : ReqError → Bool
  | .api _ status => status < 500
  | _ => false

/-- The retry guard `error instanceof AuthenticationError||
(error instanceof APIError&&error.status<500)`. -/
def noRetry (e : ReqError) : Bool :=
  e.isAuth || (e.isAPIError && e.statusLt500)

/-- The exponential backoff delay `Math.min(1000*Math.pow(2,attempt),10000)`
in milliseconds. -/
def backoffDelay (attempt : Nat) : Nat :=
  min (1000 * 2 ^ attempt) 10000

/-- The body of `request`'s `for(let attempt=0;attempt<=this.maxRetries;attempt++)`
loop.  `outcomes attempt` is what the HTTP client (with its interceptors and
`_handleError`) yields on that attempt; `fuel = maxRetries - attempt` counts
the remaining retries, so `fuel = 0` is the `attempt===this.maxRetries` exit
that breaks the loop and rethrows the last error.  The second component
records the backoff delays slept, in order. -/
def requestGo (outcomes : Nat → Except ReqError Json) :
    Nat → Nat → Except ReqError Json × List Nat
  | attempt, fuel =>
      match outcomes attempt with
      | .ok v => (.ok v, [])
      | .error e =>
          if noRetry e then (.error e, [])
          else
            match fuel with
            | 0 => (.error e, [])
            | fuel + 1 =>
                let d := backoffDelay attempt
                let (r, ds) := requestGo outcomes (attempt + 1) fuel
                (r, d :: ds)

/-- `Agentlify.request`: up to `maxRetries` retries after the first attempt,
returning the result (or the last error) and the delays slept. -/
def request (maxRetries : Nat) (outcomes : Nat → Except ReqError Json) :
    Except ReqError Json × List Nat :=
  requestGo outcomes 0 maxRetries

/-! ## Concrete fixtures

Concrete inputs used by the witness and counterexample theorems below. -/

/-- A stand-in for `JSON.parse` used where the arguments are never parsed. -/
def parse0 : String → Except String Json := fun _ => .ok Json.null

/-- A tool call naming `calc`. -/
def callA : ToolCall := { id := "call_A", function := some { name := "calc" } }

/-- A tool call naming `lookup_db`. -/
def callB : ToolCall := { id := "call_B", function := some { name := "lookup_db" } }

/-- The pair of tool calls `[A, B]` of the ordering scenario. -/
def callsAB : List ToolCall := [callA, callB]

/-- A response requesting execution of `callsAB`. -/
def respAB : AgentResponse :=
  { id := "resp-tools"
    choices := [{ message := { tool_calls := some callsAB }
                  finish_reason := some "tool_calls" }] }

/-- A server that requests the same tool calls on every request. -/
def transportAB : List Message → AgentResponse := fun _ => respAB

/-- A final response: finish reason `stop`, no tool-execution flag. -/
def stopResponse : AgentResponse :=
  { id := "resp-final"
    choices := [{ message := { content := some "done" }
                  finish_reason := some "stop" }] }

/-- A response flagged `requires_tool_execution` that carries no tool-call
list at all. -/
def flaggedNoCalls : AgentResponse :=
  { id := "resp-flagged", choices := []
    agent_metadata := some { requires_tool_execution := some true } }

/-- Valid agent id, empty (but present) messages array. -/
def emptyMsgsParams : RunParams :=
  { agentId := some "agent-1", messages := some [] }

/-- Valid params with an iteration budget of 2. -/
def budget2Params : RunParams :=
  { agentId := some "agent-1", messages := some [], maxToolIterations := some 2 }

/-- Valid params with `maxToolIterations` explicitly 0. -/
def budget0Params : RunParams :=
  { agentId := some "agent-1", messages := some [], maxToolIterations := some 0 }

/-- A callback that always throws `Error("boom")`. -/
def boomCb : Callback := fun _ => .error "boom"

/-- A registry binding `calc` to the throwing callback. -/
def regBoom : Registry := [("calc", boomCb)]

/-- A tool call whose name has no registered callback anywhere. -/
def callMissing : ToolCall :=
  { id := "call_X", function := some { name := "missing_tool" } }

/-- A retryable server error (status 500). -/
def serverErr : ReqError := .api "server exploded" 500

/-- A non-retryable client error (status 400). -/
def badReqErr : ReqError := .api "bad request" 400

/-! ## Helper lemmas -/

theorem extractAux_fst (ts : List AgentTool) :
    ∀ clean reg, (extractAux ts clean reg).1 = clean ++ ts.map AgentTool.spec := by
  induction ts with
  | nil => intro clean reg; simp [extractAux]
  | cons t ts ih =>
      intro clean reg
      simp [extractAux, ih, List.append_assoc]

theorem resolveOne_tool_call_id (parse : String → Except String Json)
    (reg : Registry) (tc : ToolCall) :
    (resolveOne parse reg tc).tool_call_id = tc.id := by
  simp only [resolveOne]
  cases h : (tc.function.map ToolCallFunction.name).bind (mapGet reg) <;> simp [h]

theorem runLoop_callerMessages (parse : String → Except String Json)
    (transport : List Message → AgentResponse) (reg : Registry)
    (maxIterations : Nat) :
    ∀ fuel caller current calls,
      (runLoop parse transport reg maxIterations caller current calls fuel).callerMessages
        = caller := by
  intro fuel
  induction fuel with
  | zero => intro caller current calls; rfl
  | succ n ih =>
      intro caller current calls
      simp only [runLoop]
      by_cases h : needsToolExecution (transport current)
      · rw [if_pos h]
        cases hp : pendingToolCalls (transport current) with
        | none => rfl
        | some tcs => exact ih _ _ _
      · rw [if_neg h]

theorem runLoop_calls_le (parse : String → Except String Json)
    (transport : List Message → AgentResponse) (reg : Registry)
    (maxIterations : Nat) :
    ∀ fuel caller current calls,
      (runLoop parse transport reg maxIterations caller current calls fuel).transportCalls
        ≤ calls + fuel := by
  intro fuel
  induction fuel with
  | zero =>
      intro caller current calls
      show calls ≤ calls + 0
      omega
  | succ n ih =>
      intro caller current calls
      simp only [runLoop]
      by_cases h : needsToolExecution (transport current)
      · rw [if_pos h]
        cases hp : pendingToolCalls (transport current) with
        | none =>
            show calls + 1 ≤ calls + (n + 1)
            omega
        | some tcs => exact le_trans (ih _ _ _) (by omega)
      · rw [if_neg h]
        show calls + 1 ≤ calls + (n + 1)
        omega

theorem runLoop_calls_ge (parse : String → Except String Json)
    (transport : List Message → AgentResponse) (reg : Registry)
    (maxIterations : Nat) :
    ∀ fuel caller current calls,
      calls ≤
        (runLoop parse transport reg maxIterations caller current calls fuel).transportCalls := by
  intro fuel
  induction fuel with
  | zero =>
      intro caller current calls
      show calls ≤ calls
      omega
  | succ n ih =>
      intro caller current calls
      simp only [runLoop]
      by_cases h : needsToolExecution (transport current)
      · rw [if_pos h]
        cases hp : pendingToolCalls (transport current) with
        | none =>
            show calls ≤ calls + 1
            omega
        | some tcs => exact le_trans (by omega) (ih _ _ _)
      · rw [if_neg h]
        show calls ≤ calls + 1
        omega

theorem runLoop_always_signals (parse : String → Except String Json)
    (transport : List Message → AgentResponse) (reg : Registry)
    (maxIterations : Nat)
    (h : ∀ ms, needsToolExecution (transport ms) = true ∧
      pendingToolCalls (transport ms) ≠ none) :
    ∀ fuel caller current calls,
      (runLoop parse transport reg maxIterations caller current calls fuel).result
          = .error (.iterationExceeded maxIterations) ∧
      (runLoop parse transport reg maxIterations caller current calls fuel).transportCalls
          = calls + fuel := by
  intro fuel
  induction fuel with
  | zero => intro caller current calls; exact ⟨rfl, rfl⟩
  | succ n ih =>
      intro caller current calls
      obtain ⟨hsig, hpend⟩ := h current
      obtain ⟨tcs, htcs⟩ := Option.ne_none_iff_exists'.mp hpend
      simp only [runLoop]
      rw [if_pos hsig, htcs]
      refine ⟨(ih _ _ _).1, ?_⟩
      rw [(ih _ _ _).2]
      omega

theorem runLoop_step_done (parse : String → Except String Json)
    (transport : List Message → AgentResponse) (reg : Registry)
    (maxIterations fuel : Nat) (caller current : List Message) (calls : Nat)
    (hdone : needsToolExecution (transport current) = false ∨
      pendingToolCalls (transport current) = none) :
    runLoop parse transport reg maxIterations caller current calls (fuel + 1)
      = { result := .ok (transport current), transportCalls := calls + 1
          sentMessages := current, callerMessages := caller } := by
  simp only [runLoop]
  rcases hdone with hd | hd
  · rw [if_neg (by simp [hd])]
  · by_cases h : needsToolExecution (transport current)
    · rw [if_pos h, hd]
    · rw [if_neg h]

theorem runLoop_step_tools (parse : String → Except String Json)
    (transport : List Message → AgentResponse) (reg : Registry)
    (maxIterations fuel : Nat) (caller current : List Message) (calls : Nat)
    (tcs : List ToolCall)
    (hsig : needsToolExecution (transport current) = true)
    (htcs : pendingToolCalls (transport current) = some tcs) :
    runLoop parse transport reg maxIterations caller current calls (fuel + 1)
      = runLoop parse transport reg maxIterations caller
          (current ++ assistantMessage (transport current) tcs ::
            (_executeToolCallbacks parse tcs reg).map toolMessage)
          (calls + 1) fuel := by
  simp only [runLoop]
  rw [if_pos hsig, htcs]

theorem effectiveMaxIterations_pos (o : Option Nat) :
    0 < effectiveMaxIterations o := by
  cases o with
  | none => simp [effectiveMaxIterations]
  | some n =>
      simp only [effectiveMaxIterations]
      by_cases h : n = 0
      · simp [h]
      · simp [h]
        omega

theorem runLoop_calls_succ (parse : String → Except String Json)
    (transport : List Message → AgentResponse) (reg : Registry)
    (maxIterations fuel : Nat) (caller current : List Message) (calls : Nat) :
    calls + 1 ≤
      (runLoop parse transport reg maxIterations caller current calls
        (fuel + 1)).transportCalls := by
  simp only [runLoop]
  by_cases h : needsToolExecution (transport current)
  · rw [if_pos h]
    cases hp : pendingToolCalls (transport current) with
    | none =>
        show calls + 1 ≤ calls + 1
        omega
    | some tcs => exact runLoop_calls_ge parse transport reg maxIterations fuel _ _ _
  · rw [if_neg h]

theorem requestGo_unfold (outcomes : Nat → Except ReqError Json)
    (attempt fuel : Nat) :
    requestGo outcomes attempt fuel =
      match outcomes attempt with
      | .ok v => (.ok v, [])
      | .error e =>
          if noRetry e then (.error e, [])
          else
            match fuel with
            | 0 => (.error e, [])
            | f + 1 =>
                let d := backoffDelay attempt
                let (r, ds) := requestGo outcomes (attempt + 1) f
                (r, d :: ds) := by
  rw [requestGo]

theorem requestGo_allRetryable (outcomes : Nat → Except ReqError Json)
    (errs : Nat → ReqError) (ho : ∀ k, outcomes k = .error (errs k))
    (hr : ∀ k, noRetry (errs k) = false) :
    ∀ fuel attempt, requestGo outcomes attempt fuel =
      (.error (errs (attempt + fuel)),
        (List.range fuel).map (fun i => backoffDelay (attempt + i))) := by
  intro fuel
  induction fuel with
  | zero =>
      intro attempt
      rw [requestGo_unfold, ho attempt]
      show (if noRetry (errs attempt) = true then (Except.error (errs attempt), ([] : List Nat))
        else (Except.error (errs attempt), ([] : List Nat))) = _
      rw [ite_self]
      simp
  | succ n ih =>
      intro attempt
      rw [requestGo_unfold, ho attempt]
      show (if noRetry (errs attempt) = true then (Except.error (errs attempt), ([] : List Nat))
        else ((requestGo outcomes (attempt + 1) n).1,
          backoffDelay attempt :: (requestGo outcomes (attempt + 1) n).2)) = _
      rw [if_neg (by simp [hr attempt])]
      rw [ih (attempt + 1)]
      refine Prod.ext ?_ ?_
      · show Except.error (errs (attempt + 1 + n)) = Except.error (errs (attempt + (n + 1)))
        have : attempt + 1 + n = attempt + (n + 1) := by omega
        rw [this]
      · show backoffDelay attempt ::
            (List.range n).map (fun i => backoffDelay (attempt + 1 + i))
          = (List.range (n + 1)).map (fun i => backoffDelay (attempt + i))
        rw [List.range_succ_eq_map, List.map_cons, List.map_map]
        refine congrArg₂ List.cons (by simp) ?_
        refine List.map_congr_left ?_
        intro i _
        show backoffDelay (attempt + 1 + i) = backoffDelay (attempt + (i + 1))
        have : attempt + 1 + i = attempt + (i + 1) := by omega
        rw [this]

theorem run_valid (parse : String → Except String Json)
    (transport : List Message → AgentResponse) (params : RunParams)
    (msgs : List Message)
    (hid : falsyId params.agentId = false) (hm : params.messages = some msgs) :
    run parse transport params =
      runLoop parse transport ((_extractToolCallbacks (params.tools.getD [])).2)
        (effectiveMaxIterations params.maxToolIterations) msgs msgs 0
        (effectiveMaxIterations params.maxToolIterations) := by
  simp only [run]
  rw [if_neg (by simp [hid]), hm]

/-! ## Claim theorems -/

/-- C1: when `run()` is invoked with an explicit positive iteration budget
`n`, at most `n` transport requests are made; and against a server whose
every response signals tool execution and carries a non-empty tool-call
list, a validly-parameterized `run()` throws the iteration-budget error
naming `n` instead of returning any response. -/
theorem run_respects_iteration_budget (parse : String → Except String Json)
    (transport : List Message → AgentResponse) (params : RunParams)
    (n : Nat) (hmax : params.maxToolIterations = some n) (hpos : 0 < n) :
    (run parse transport params).transportCalls ≤ n ∧
    (falsyId params.agentId = false →
      ∀ msgs, params.messages = some msgs →
      (∀ ms, needsToolExecution (transport ms) = true ∧
        pendingToolCalls (transport ms) ≠ none) →
      (run parse transport params).result = .error (.iterationExceeded n)) := by
  have heff : effectiveMaxIterations params.maxToolIterations = n := by
    rw [hmax]
    simp only [effectiveMaxIterations]
    rw [if_neg (by omega)]
  constructor
  · cases hid : falsyId params.agentId with
    | true =>
        have hrw : run parse transport params =
            { result := .error (.invalidRequest "agentId is required" "agentId")
              transportCalls := 0, sentMessages := []
              callerMessages := params.messages.getD [] } := by
          simp only [run]
          rw [if_pos hid]
        rw [hrw]
        exact Nat.zero_le n
    | false =>
        cases hm : params.messages with
        | none =>
            have hrw : run parse transport params =
                { result := .error
                    (.invalidRequest "messages array is required" "messages")
                  transportCalls := 0, sentMessages := []
                  callerMessages := [] } := by
              simp only [run]
              rw [if_neg (by simp [hid]), hm]
            rw [hrw]
            exact Nat.zero_le n
        | some msgs =>
            rw [run_valid parse transport params msgs hid hm, heff]
            simpa using runLoop_calls_le parse transport
              ((_extractToolCallbacks (params.tools.getD [])).2) n n msgs msgs 0
  · intro hid msgs hm halways
    rw [run_valid parse transport params msgs hid hm, heff]
    exact (runLoop_always_signals parse transport
      ((_extractToolCallbacks (params.tools.getD [])).2) n halways n msgs msgs 0).1

/-- C1 witness: a budget of 2 against an always-tool-calling server makes at
most 2 transport calls and throws the iteration-budget error naming 2. -/
theorem run_respects_iteration_budget_witness :
    (run parse0 transportAB budget2Params).transportCalls ≤ 2 ∧
    (run parse0 transportAB budget2Params).result = .error (.iterationExceeded 2) :=
  have h := run_respects_iteration_budget parse0 transportAB budget2Params 2
    rfl (by decide)
  ⟨h.1, h.2 rfl [] rfl (fun _ => ⟨rfl, fun hcon => Option.noConfusion hcon⟩)⟩

/-- C2: resolving a tool call whose `function.name` has no registered
callback produces — at that call's position, with that call's id — a result
whose content is `{error: "No callback registered for tool: <name>"}`;
`_executeToolCallbacks` is a total function, so no exception is thrown. -/
theorem missing_callback_yields_error_result
    (parse : String → Except String Json) (reg : Registry)
    (calls : List ToolCall) (i : Nat) (hi : i < calls.length)
    (hnone : (calls[i].function.map ToolCallFunction.name).bind (mapGet reg)
      = none) :
    ∃ hi' : i < (_executeToolCallbacks parse calls reg).length,
      (_executeToolCallbacks parse calls reg)[i] =
        { tool_call_id := calls[i].id
          content := errContent ("No callback registered for tool: " ++
            interpName (calls[i].function.map ToolCallFunction.name)) } := by
  have hlen : (_executeToolCallbacks parse calls reg).length = calls.length :=
    List.length_map calls (resolveOne parse reg)
  refine ⟨hlen ▸ hi, ?_⟩
  simp only [_executeToolCallbacks, List.getElem_map]
  simp only [resolveOne, hnone]

/-- C2 witness: a single call to the unregistered `missing_tool` resolves to
the structured no-callback error paired with the call's id. -/
theorem missing_callback_yields_error_result_witness :
    ∃ hi' : 0 < (_executeToolCallbacks parse0 [callMissing] []).length,
      (_executeToolCallbacks parse0 [callMissing] [])[0] =
        { tool_call_id := callMissing.id
          content := errContent ("No callback registered for tool: " ++
            interpName (callMissing.function.map ToolCallFunction.name)) } :=
  missing_callback_yields_error_result parse0 [] [callMissing] 0 (by decide) rfl

/-- C3: when a registered callback's invocation fails with message `m` —
either because `JSON.parse` of the arguments throws or because the callback
itself throws/rejects — the resolved result pairs the call's id with content
`{error: m}` (no exception escapes: `resolveOne` is total), the loop's tool
message for it carries the serialized form, and concretely
`Error("boom")` serializes to the text of a one-key error object. -/
theorem callback_failure_becomes_error_content
    (parse : String → Except String Json) (reg : Registry) (tc : ToolCall)
    (cb : Callback) (m : String)
    (hcb : (tc.function.map ToolCallFunction.name).bind (mapGet reg) = some cb)
    (hfail : computeArgs parse tc = .error m ∨
      ∃ args, computeArgs parse tc = .ok args ∧ cb args = .error m) :
    resolveOne parse reg tc = { tool_call_id := tc.id, content := errContent m } ∧
    toolMessage (resolveOne parse reg tc) =
      { role := "tool", tool_call_id := some tc.id
        content := some (stringify (errContent m)) } ∧
    serializeContent (errContent "boom") = "\x7b\"error\":\"boom\"\x7d" := by
  have h1 : resolveOne parse reg tc =
      { tool_call_id := tc.id, content := errContent m } := by
    simp only [resolveOne, hcb, invokeCallback]
    rcases hfail with h | ⟨args, ha, hc⟩
    · simp [h]
    · simp [ha, hc]
  refine ⟨h1, ?_, rfl⟩
  rw [h1]
  rfl

/-- C3 witness: the `calc` callback throwing `Error("boom")` yields content
`{error: "boom"}` and the serialized tool-message text. -/
theorem callback_failure_becomes_error_content_witness :
    resolveOne parse0 regBoom callA =
      { tool_call_id := callA.id, content := errContent "boom" } ∧
    toolMessage (resolveOne parse0 regBoom callA) =
      { role := "tool", tool_call_id := some callA.id
        content := some (stringify (errContent "boom")) } ∧
    serializeContent (errContent "boom") = "\x7b\"error\":\"boom\"\x7d" :=
  callback_failure_becomes_error_content parse0 regBoom callA boomCb "boom" rfl
    (Or.inr ⟨Json.obj [], rfl, rfl⟩)

/-- C4: `_extractToolCallbacks` returns `cleanTools` of the same length and
order as the input — element `i` is the callback-free part (`ToolSpec`, a
type with no callback field) of input element `i`.  The embedding is a pure
function of the tool-list value, so the caller's list and its elements are
left unmutated by construction. -/
theorem extract_preserves_length_and_order (tools : List AgentTool) :
    (_extractToolCallbacks tools).1 = tools.map AgentTool.spec ∧
    (_extractToolCallbacks tools).1.length = tools.length := by
  have h : (_extractToolCallbacks tools).1 = tools.map AgentTool.spec := by
    simpa [_extractToolCallbacks] using extractAux_fst tools [] []
  exact ⟨h, by rw [h, List.length_map]⟩

/-- C5: resolution produces exactly one result per tool call, in call order
(the resulting `tool_call_id`s are exactly the calls' ids, in order), and a
loop iteration whose response carries tool calls `tcs` continues with the
message sequence extended by one assistant message (echoing `tcs`) followed
by one tool message per result in that same order, then resubmits. -/
theorem tool_results_follow_call_order (parse : String → Except String Json)
    (reg : Registry) :
    (∀ calls : List ToolCall,
      (_executeToolCallbacks parse calls reg).map ToolResult.tool_call_id
          = calls.map ToolCall.id ∧
      (_executeToolCallbacks parse calls reg).length = calls.length) ∧
    (∀ (transport : List Message → AgentResponse) (maxIterations fuel : Nat)
        (caller current : List Message) (calls : Nat) (tcs : List ToolCall),
      needsToolExecution (transport current) = true →
      pendingToolCalls (transport current) = some tcs →
      runLoop parse transport reg maxIterations caller current calls (fuel + 1)
        = runLoop parse transport reg maxIterations caller
            (current ++ assistantMessage (transport current) tcs ::
              (_executeToolCallbacks parse tcs reg).map toolMessage)
            (calls + 1) fuel) := by
  constructor
  · intro calls
    constructor
    · show (calls.map (resolveOne parse reg)).map ToolResult.tool_call_id
        = calls.map ToolCall.id
      rw [List.map_map]
      exact List.map_congr_left fun tc _ => resolveOne_tool_call_id parse reg tc
    · exact List.length_map calls (resolveOne parse reg)
  · intro transport maxIterations fuel caller current calls tcs hsig htcs
    exact runLoop_step_tools parse transport reg maxIterations fuel caller
      current calls tcs hsig htcs

/-- C5 witness: the calls `[A, B]` resolve to results with ids `[A, B]` in
order, and the loop step appends `[assistant, tool(A), tool(B)]` before
resubmitting. -/
theorem tool_results_follow_call_order_witness :
    (_executeToolCallbacks parse0 callsAB []).map ToolResult.tool_call_id
        = callsAB.map ToolCall.id ∧
    runLoop parse0 transportAB [] 2 [] [] 0 (0 + 1)
      = runLoop parse0 transportAB [] 2 []
          ([] ++ assistantMessage (transportAB []) callsAB ::
            (_executeToolCallbacks parse0 callsAB []).map toolMessage)
          (0 + 1) 0 :=
  ⟨((tool_results_follow_call_order parse0 []).1 callsAB).1,
   (tool_results_follow_call_order parse0 []).2 transportAB 2 0 [] [] 0 callsAB
     rfl rfl⟩

/-- C6: a validly-parameterized `run()` against a server whose (first)
response does not signal tool execution returns that response unchanged
after exactly one transport call; likewise when the response is flagged for
tool execution but carries no usable tool-call list. -/
theorem run_returns_nontool_response_unchanged
    (parse : String → Except String Json) (r : AgentResponse)
    (params : RunParams) (msgs : List Message)
    (hid : falsyId params.agentId = false) (hm : params.messages = some msgs)
    (hdone : needsToolExecution r = false ∨ pendingToolCalls r = none) :
    run parse (fun _ => r) params =
      { result := .ok r, transportCalls := 1
        sentMessages := msgs, callerMessages := msgs } := by
  rw [run_valid parse (fun _ => r) params msgs hid hm]
  obtain ⟨f, hf⟩ : ∃ f, effectiveMaxIterations params.maxToolIterations = f + 1 :=
    ⟨effectiveMaxIterations params.maxToolIterations - 1, by
      have := effectiveMaxIterations_pos params.maxToolIterations
      omega⟩
  rw [hf]
  exact runLoop_step_done parse (fun _ => r)
    ((_extractToolCallbacks (params.tools.getD [])).2) (f + 1) f msgs msgs 0 hdone

/-- C6 witness: a `stop` response, and a flagged response with an empty
choice list, are both returned unchanged after one transport call. -/
theorem run_returns_nontool_response_unchanged_witness :
    run parse0 (fun _ => stopResponse) emptyMsgsParams =
      { result := .ok stopResponse, transportCalls := 1
        sentMessages := [], callerMessages := [] } ∧
    run parse0 (fun _ => flaggedNoCalls) emptyMsgsParams =
      { result := .ok flaggedNoCalls, transportCalls := 1
        sentMessages := [], callerMessages := [] } :=
  ⟨run_returns_nontool_response_unchanged parse0 stopResponse emptyMsgsParams []
     rfl rfl (Or.inl rfl),
   run_returns_nontool_response_unchanged parse0 flaggedNoCalls emptyMsgsParams []
     rfl rfl (Or.inr rfl)⟩

/-- C7 counterexample: with a present agent id and an EMPTY messages array,
`run()` does not fail with a validation error — it makes a transport request
(one network call) and returns the server's response, refuting the claim
that any call whose `messages` is not a non-empty sequence fails locally
before any network call. -/
theorem empty_messages_reaches_network :
    (run parse0 (fun _ => stopResponse) emptyMsgsParams).result
        = .ok stopResponse ∧
    (run parse0 (fun _ => stopResponse) emptyMsgsParams).transportCalls = 1 :=
  ⟨rfl, rfl⟩

/-- C7 (amended): `run()` and `execute()` fail immediately — zero transport
requests — with a validation error naming the offending field when `agentId`
is absent/empty, or when `messages` is absent (not an array); emptiness of
the messages array is not checked. -/
theorem validation_fails_fast_on_missing_fields
    (parse : String → Except String Json)
    (transport : List Message → AgentResponse) (params : RunParams) :
    (falsyId params.agentId = true →
      run parse transport params =
        { result := .error (.invalidRequest "agentId is required" "agentId")
          transportCalls := 0, sentMessages := []
          callerMessages := params.messages.getD [] } ∧
      execute transport params =
        { result := .error (.invalidRequest "agentId is required" "agentId")
          transportCalls := 0, sentMessages := []
          callerMessages := params.messages.getD [] }) ∧
    (falsyId params.agentId = false → params.messages = none →
      run parse transport params =
        { result := .error
            (.invalidRequest "messages array is required" "messages")
          transportCalls := 0, sentMessages := [], callerMessages := [] } ∧
      execute transport params =
        { result := .error
            (.invalidRequest "messages array is required" "messages")
          transportCalls := 0, sentMessages := [], callerMessages := [] }) := by
  constructor
  · intro hid
    constructor
    · simp only [run]
      rw [if_pos hid]
    · simp only [execute]
      rw [if_pos hid]
  · intro hid hm
    constructor
    · simp only [run]
      rw [if_neg (by simp [hid]), hm]
    · simp only [execute]
      rw [if_neg (by simp [hid]), hm]

/-- C7 (amended) witness: missing agent id, and missing messages with a
valid agent id, both fail fast with the named field and zero transport
calls. -/
theorem validation_fails_fast_on_missing_fields_witness :
    (run parse0 (fun _ => stopResponse) {} =
        { result := .error (.invalidRequest "agentId is required" "agentId")
          transportCalls := 0, sentMessages := []
          callerMessages := (RunParams.mk none none none none).messages.getD [] } ∧
      execute (fun _ => stopResponse) {} =
        { result := .error (.invalidRequest "agentId is required" "agentId")
          transportCalls := 0, sentMessages := []
          callerMessages := (RunParams.mk none none none none).messages.getD [] }) ∧
    (run parse0 (fun _ => stopResponse) { agentId := some "agent-1" } =
        { result := .error
            (.invalidRequest "messages array is required" "messages")
          transportCalls := 0, sentMessages := [], callerMessages := [] } ∧
      execute (fun _ => stopResponse) { agentId := some "agent-1" } =
        { result := .error
            (.invalidRequest "messages array is required" "messages")
          transportCalls := 0, sentMessages := [], callerMessages := [] }) :=
  ⟨(validation_fails_fast_on_missing_fields parse0 (fun _ => stopResponse) {}).1
     rfl,
   (validation_fails_fast_on_missing_fields parse0 (fun _ => stopResponse)
     { agentId := some "agent-1" }).2 rfl rfl⟩

/-- C8: `Agentlify.request` propagates an authentication failure or any
`APIError` carrying a status below 500 immediately, with no retry and no
backoff sleep; when every attempt fails with a retryable error it performs
`maxRetries` retries sleeping `min(1000·2^attempt, 10000)` milliseconds
after each failed attempt, then throws the last error. -/
theorem request_retry_policy :
    (∀ (maxRetries : Nat) (outcomes : Nat → Except ReqError Json)
        (e : ReqError),
      outcomes 0 = .error e → noRetry e = true →
      request maxRetries outcomes = (.error e, [])) ∧
    (∀ (maxRetries : Nat) (outcomes : Nat → Except ReqError Json)
        (errs : Nat → ReqError),
      (∀ k, outcomes k = .error (errs k)) → (∀ k, noRetry (errs k) = false) →
      request maxRetries outcomes =
        (.error (errs maxRetries), (List.range maxRetries).map backoffDelay)) := by
  constructor
  · intro maxRetries outcomes e h0 hnr
    rw [request, requestGo_unfold, h0]
    show (if noRetry e = true then (Except.error e, ([] : List Nat))
      else _) = _
    rw [if_pos hnr]
  · intro maxRetries outcomes errs ho hr
    rw [request, requestGo_allRetryable outcomes errs ho hr maxRetries 0]
    simp

/-- C8 witness: a 400 `APIError` propagates with no retry; a constant 500
server error exhausts 2 retries with the backoff delays and rethrows. -/
theorem request_retry_policy_witness :
    request 2 (fun _ => .error badReqErr) = (.error badReqErr, []) ∧
    request 2 (fun _ => .error serverErr) =
      (.error serverErr, (List.range 2).map backoffDelay) :=
  ⟨request_retry_policy.1 2 (fun _ => .error badReqErr) badReqErr rfl rfl,
   request_retry_policy.2 2 (fun _ => .error serverErr) (fun _ => serverErr)
     (fun _ => rfl) (fun _ => rfl)⟩

/-- C9: a `maxToolIterations` of 0 (or an absent one — the falsy values the
embedding can express) does not give a zero budget: the effective budget is
the default 10, so a validly-parameterized `run()` always makes at least one
transport call. -/
theorem zero_max_iterations_defaults_to_ten (parse : String → Except String Json)
    (transport : List Message → AgentResponse) (params : RunParams)
    (msgs : List Message)
    (hz : params.maxToolIterations = some 0 ∨ params.maxToolIterations = none)
    (hid : falsyId params.agentId = false) (hm : params.messages = some msgs) :
    effectiveMaxIterations params.maxToolIterations = 10 ∧
    1 ≤ (run parse transport params).transportCalls := by
  have h10 : effectiveMaxIterations params.maxToolIterations = 10 := by
    rcases hz with h | h <;> simp [h, effectiveMaxIterations]
  refine ⟨h10, ?_⟩
  rw [run_valid parse transport params msgs hid hm, h10]
  rw [show (10 : Nat) = 9 + 1 from rfl]
  simpa using runLoop_calls_succ parse transport
    ((_extractToolCallbacks (params.tools.getD [])).2) (9 + 1) 9 msgs msgs 0

/-- C9 witness: `maxToolIterations: 0` yields an effective budget of 10 and
at least one transport call. -/
theorem zero_max_iterations_defaults_to_ten_witness :
    effectiveMaxIterations budget0Params.maxToolIterations = 10 ∧
    1 ≤ (run parse0 (fun _ => stopResponse) budget0Params).transportCalls :=
  zero_max_iterations_defaults_to_ten parse0 (fun _ => stopResponse)
    budget0Params [] (Or.inl rfl) rfl rfl

/-- C10: across every invocation of `run()` — returning or throwing — the
caller's `params.messages` array is unchanged: the loop copies it into its
own `currentMessages` and appends only there, and the embedding tracks the
caller's array through every iteration, recovering it intact. -/
theorem run_leaves_caller_messages_unchanged (parse : String → Except String Json)
    (transport : List Message → AgentResponse) (params : RunParams) :
    (run parse transport params).callerMessages = params.messages.getD [] := by
  cases hid : falsyId params.agentId with
  | true =>
      simp only [run]
      rw [if_pos hid]
  | false =>
      cases hm : params.messages with
      | none =>
          simp only [run]
          rw [if_neg (by simp [hid]), hm]
          rfl
      | some msgs =>
          rw [run_valid parse transport params msgs hid hm]
          rw [runLoop_callerMessages]
          rfl
